import Mathlib

/-!
Verification of the download-orchestration core of the Petice YT Downloader
(`src/main.py`) against its natural-language specification.

The Python source is shallowly embedded: pure helpers become Lean functions
on `List Char` / `String` / `Nat`, the worker processes become functions from
environment oracles (per-attempt download outcomes, in-flight progress
callbacks, a cooperative cancellation schedule) to the list of messages they
put on the multiprocessing queue, and the GUI event loop becomes a step
function on an explicit state record.  Machine-level aspects (wall-clock
throttling, `time.sleep`, the hard `terminate()` of the worker process) are
noted where they occur; the theorems are about the message-level and
state-level behaviour of the embedded code.
-/

namespace Petice

/-! ## Characters and Python string primitives -/

/-- The reserved characters replaced by `sanitize_filename`
(`invalid_chars = '<>:"/\\|?*'`, main.py line 79). -/
def invalid_chars : List Char := ['<', '>', ':', '"', '/', '\\', '|', '?', '*']

/-- ASCII whitespace recognised by Python's `str.strip()` (we model the ASCII
subset of Python's whitespace class; the inputs of interest are ASCII). -/
def pySpaceChars : List Char := [' ', '\t', '\n', '\r', Char.ofNat 11, Char.ofNat 12]

def pyIsSpace (c : Char) : Bool := pySpaceChars.contains c

/-- Replacement (`str.replace`) of every reserved character by an underscore
(main.py lines 80-81). -/
def replaceInvalid (cs : List Char) : List Char :=
  cs.map (fun c => if invalid_chars.contains c then '_' else c)

/-- Python `str.lstrip`-style removal of a leading run of characters
satisfying `p`. -/
def pyLStrip (p : Char → Bool) (cs : List Char) : List Char := cs.dropWhile p

/-- Python `str.rstrip`-style removal of a trailing run of characters
satisfying `p`. -/
def pyRStrip (p : Char → Bool) : List Char → List Char
  | [] => []
  | c :: cs => if (pyRStrip p cs).isEmpty && p c then [] else c :: pyRStrip p cs

/-- Python `str.strip()` (both ends) for predicate `p`. -/
def pyStripBoth (p : Char → Bool) (cs : List Char) : List Char :=
  pyRStrip p (pyLStrip p cs)

/-- The function `sanitize_filename` (main.py lines 71-83): replace each reserved character
with an underscore, then `strip()` surrounding whitespace, then `rstrip('.')`
trailing dots. -/
def sanitize_filename (s : String) : String :=
  String.mk (pyRStrip (fun c => c == '.') (pyStripBoth pyIsSpace (replaceInvalid s.data)))

/-- Python `str.strip()` on a whole string (used on the URL input field,
main.py line 531). -/
def pyStripStr (s : String) : String := String.mk (pyStripBoth pyIsSpace s.data)

/-- Python `str.startswith`. -/
def pyStartsWith (s pre : String) : Bool := pre.data.isPrefixOf s.data

/-! ## Data model -/

/-- One playlist entry as yt-dlp returns it: a dict from which the code reads
`id`, `url` and `title` with `.get` defaults. -/
structure Video where
  id? : Option String
  url? : Option String
  title? : Option String
  deriving DecidableEq, Repr, Inhabited

/-- Reads `video.get("id", "")`. -/
def videoId (v : Video) : String := v.id?.getD ""

/-- Builds `f"https://www.youtube.com/watch?v=" + video_id` when the id is
nonempty, else
video.get("url", "")` (main.py line 151 / 291). -/
def videoUrl (v : Video) : String :=
  if videoId v ≠ "" then "https://www.youtube.com/watch?v=" ++ videoId v else v.url?.getD ""

/-- Reads `video.get("title", "Unknown video")` — the sequential worker's default
(main.py line 152). -/
def videoTitleSeq (v : Video) : String := v.title?.getD "Unknown video"

/-- Reads `video.get("title", "Unknown")` — the concurrent worker's default
(main.py line 289). -/
def videoTitleConc (v : Video) : String := v.title?.getD "Unknown"

/-- The dict produced by `get_playlist_info` and stored in `download_queue`:
`{'title', 'url', 'total', 'entries'}` (main.py lines 104-109, 473). -/
structure PlaylistInfo where
  title : String
  url : String
  total : Nat
  entries : List Video
  deriving DecidableEq, Repr, Inhabited

/-- The raw result of one successful `ydl.extract_info` call: the info dict
(usable itself as a single entry when `entries` is empty) together with its
`entries` list (empty when the key is absent). -/
structure RawInfo where
  asVideo : Video
  entries : List Video
  deriving DecidableEq, Repr, Inhabited

/-! ## MetadataResolver: `get_playlist_info` (main.py lines 85-112)

The loop makes up to 3 `extract_info` attempts; the environment is the list of
attempt results (`none` = the attempt raised, or returned a `None` info whose
`.get('title', ...)` then raised).  The second component counts the one-second
`time.sleep(1)` back-offs taken (one per failed attempt, including the last). -/

def gpi_go (url : String) : List (Option RawInfo) → PlaylistInfo × Nat
  | [] => ({ title := sanitize_filename url, url := url, total := 0, entries := [] }, 0)
  | none :: rest =>
    let r := gpi_go url rest
    (r.1, r.2 + 1)
  | some info :: _ =>
    ({ title := sanitize_filename (info.asVideo.title?.getD url)
       url := url
       -- `len(entries) or 1` handles single videos
       total := if info.entries.length = 0 then 1 else info.entries.length
       -- `entries if entries else [info]`
       entries := if info.entries.isEmpty then [info.asVideo] else info.entries }, 0)

/-- The function `get_playlist_info`: at most 3 attempts (`for _ in range(3)`), failing
closed with `total = 0` and empty entries. -/
def get_playlist_info (url : String) (attempts : List (Option RawInfo)) : PlaylistInfo :=
  (gpi_go url (attempts.take 3)).1

/-- Seconds slept in back-off during `get_playlist_info`. -/
def gpi_sleep_seconds (url : String) (attempts : List (Option RawInfo)) : Nat :=
  (gpi_go url (attempts.take 3)).2

/-! ## QueueManager: the LIFO queue (main.py lines 430, 443-447, 585-589, 634-639) -/

/-- Appends (`download_queue.append(...)`) — enqueue at the right end. -/
def enqueue (q : List PlaylistInfo) (e : PlaylistInfo) : List PlaylistInfo := q ++ [e]

/-- The `-REMOVE-LAST-` handler: `download_queue.pop()` guarded by
`if download_queue` (no-op on the empty queue). -/
def removeLast (q : List PlaylistInfo) : List PlaylistInfo := q.dropLast

/-- The `-DOWNLOAD-` handler's selection of the next job:
`download_queue[-1]` (main.py line 637). -/
def nextJob (q : List PlaylistInfo) : Option PlaylistInfo := q.getLast?

/-- Title truncation used by `update_queue_display` (main.py line 445):
`item['title'][:35] + '...' if len(item['title']) > 38 else item['title']`. -/
def displayTitle (t : String) : String :=
  if t.length > 38 then t.take 35 ++ "..." else t

/-- The ordered titles shown by `update_queue_display`: iterate over
`reversed(download_queue)`. -/
def update_queue_display_titles (q : List PlaylistInfo) : List String :=
  q.reverse.map (fun e => displayTitle e.title)

/-- Computes `" | ".join(titles) if titles else "Queue is empty"`. -/
def update_queue_display_text (q : List PlaylistInfo) : String :=
  if q = [] then "Queue is empty"
  else String.intercalate " | " (update_queue_display_titles q)

/-! ## The GUI event-loop state (main.py lines 429-441 and the handlers) -/

structure UIState where
  download_queue : List PlaylistInfo
  initial_total : Nat
  downloaded_files : Nat
  processed_files : Nat
  session_active : Bool
  current_download : Option PlaylistInfo
  concurrent_mode : Bool
  current_total : Nat
  processed_current : Nat
  status_text : String
  deriving DecidableEq, Repr

/-- Computes `sum(item.get('total', 0) for item in download_queue)`. -/
def sumTotals (q : List PlaylistInfo) : Nat := (q.map PlaylistInfo.total).sum

/-- The closure `update_counters` (main.py lines 449-453): recomputes `initial_total`
from the queue unless a session is active.  (The progress-bar redraws have no
state effect.) -/
def update_counters (st : UIState) : UIState :=
  if st.session_active then st
  else { st with initial_total := sumTotals st.download_queue }

/-- The closure `add_to_queue` (main.py lines 467-493): rejects URLs that do not start
with `http://` or `https://`, otherwise appends a `Loading...` placeholder
and launches the metadata-resolution thread.  The returned Bool records
whether that background resolution was launched. -/
def add_to_queue (st : UIState) (url : String) : UIState × Bool :=
  if !(pyStartsWith url "http://" || pyStartsWith url "https://") then
    ({ st with status_text := "Invalid URL" }, false)
  else
    ({ st with
        download_queue :=
          st.download_queue ++ [{ title := "Loading...", url := url, total := 0, entries := [] }]
        status_text := "Fetching info..." }, true)

/-- The events consumed by the main loop: button clicks and the messages the
worker posts back through `msg_queue` / `write_event_value`. -/
inductive UIEvent where
  | addQueue (rawUrl : String)
  | clearQueue
  | removeLastClick
  | viewQueueDelete (sel : Nat)
  | startDownload
  | cancelClick
  | statusMsg (s : String)
  | msgFileProgress (p : Int)
  | msgDownloaded
  | msgProcessed
  | queueCompleteMsg
  | threadEndMsg
  | resolutionDone (idx : Nat) (info : PlaylistInfo)
  deriving DecidableEq, Repr

/-- One step of the main event loop (main.py lines 510-718), restricted to the
fields of `UIState`.  `resolutionDone idx info` is the completion of the
`fetch_title` background thread for the queue entry at `idx` (the Python code
addresses that entry by object identity; we address it by position). -/
def ui_step (st : UIState) (ev : UIEvent) : UIState :=
  match ev with
  | .addQueue raw =>
    -- `url = values["-URL-"].strip(); if url:` (lines 531-542)
    let url := pyStripStr raw
    if url = "" then st
    else
      let st1 := (add_to_queue st url).1
      { st1 with
        downloaded_files := 0
        processed_files := 0
        initial_total := sumTotals st1.download_queue }
  | .clearQueue =>
    update_counters
      { st with download_queue := [], downloaded_files := 0, processed_files := 0 }
  | .removeLastClick =>
    update_counters { st with download_queue := st.download_queue.dropLast }
  | .viewQueueDelete sel =>
    -- `del download_queue[len(download_queue)-1-selected_index]` (line 577)
    if sel < st.download_queue.length then
      update_counters
        { st with download_queue :=
            st.download_queue.eraseIdx (st.download_queue.length - 1 - sel) }
    else st
  | .startDownload =>
    if st.download_queue ≠ [] ∧ st.current_download = none ∧ 0 < st.initial_total then
      match st.download_queue.getLast? with
      | some e =>
        { st with
          session_active := true
          current_download := some e
          current_total := e.total
          processed_current := 0
          status_text := "Starting..." }
      | none => st
    else st
  | .cancelClick =>
    update_counters
      { st with
        status_text := "Cancelled"
        current_download := none
        session_active := false
        downloaded_files := 0
        processed_files := 0 }
  | .statusMsg s => { st with status_text := s }
  | .msgFileProgress _ => st
  | .msgDownloaded =>
    update_counters { st with downloaded_files := st.downloaded_files + 1 }
  | .msgProcessed =>
    update_counters
      { st with
        processed_files := st.processed_files + 1
        processed_current :=
          if st.concurrent_mode then st.processed_current + 1 else st.processed_current }
  | .queueCompleteMsg =>
    if st.download_queue ≠ [] ∧ st.current_download = st.download_queue.getLast? then
      { st with download_queue := st.download_queue.dropLast, current_download := none }
    else st
  | .threadEndMsg => { st with current_download := none, session_active := false }
  | .resolutionDone idx info =>
    match st.download_queue.get? idx with
    | none => st
    | some _ =>
      if info.total = 0 then
        { st with
          download_queue := st.download_queue.eraseIdx idx
          status_text := "Invalid URL" }
      else
        update_counters
          { st with
            download_queue := st.download_queue.set idx info
            status_text := "Waiting to start" }

/-- The operations that the code resets the aggregate counters on:
queue-clear, cancellation, and (contrary to the claim) every add-to-queue
submission of a nonempty URL (main.py lines 535-536). -/
def resetsCounters (ev : UIEvent) : Prop :=
  ev = UIEvent.clearQueue ∨ ev = UIEvent.cancelClick ∨
    ∃ raw, ev = UIEvent.addQueue raw ∧ pyStripStr raw ≠ ""

/-! ## Unique destination directory (main.py lines 132-139 / 257-264) -/

/-- Models `os.path.join(base_folder, title)` (POSIX separator). -/
def joinPath (b t : String) : String := b ++ "/" ++ t

/-- The k-th candidate name tried by the collision loop:
the original folder, then `f"{original_folder}_{suffix}"` for suffix ≥ 1. -/
def folderCandidate (orig : String) : Nat → String
  | 0 => orig
  | k + 1 => orig ++ "_" ++ toString (k + 1)

/-- The `while os.path.exists(playlist_folder)` loop, fuelled: starting from
candidate `k`, return the first candidate that does not exist. -/
def findFreeFolder (ex : String → Bool) (orig : String) : Nat → Nat → Option String
  | 0, _ => none
  | fuel + 1, k =>
    if ex (folderCandidate orig k) then findFreeFolder ex orig fuel (k + 1)
    else some (folderCandidate orig k)

/-! ## Progress hook (main.py lines 183-207 / 299-321) -/

/-- The fields the hook reads from the yt-dlp progress dict. -/
structure HookData where
  status : Option String
  percent : Option Rat
  downloaded_bytes : Option Nat
  total_bytes : Option Nat
  total_bytes_estimate : Option Nat
  deriving DecidableEq, Repr

/-- Python `int()` truncation toward zero on an exact rational (the float
arithmetic of the source is modelled exactly). -/
def pyInt (q : Rat) : Int := if 0 ≤ q then q.floor else -((-q).floor)

/-- Computes `int((downloaded_bytes / total_bytes) * 100)` on the nonnegative byte
counts of the hook: truncating the exact ratio `db/tb · 100` toward zero is
exactly the natural-number division `db·100 / tb`. -/
def ratioPercent (db tb : Nat) : Int := Int.ofNat (db * 100 / tb)

/-- Computes `d.get('total_bytes') or d.get('total_bytes_estimate', 1)`: Python `or`
falls through on a missing key and on an explicit 0. -/
def totalBytesVal (d : HookData) : Nat :=
  match d.total_bytes with
  | some n => if n ≠ 0 then n else d.total_bytes_estimate.getD 1
  | none => d.total_bytes_estimate.getD 1

/-- The percentage computed in the `downloading` branch of `progress_hook`
(main.py lines 197-203): the provider field `percent` wins when present,
otherwise the byte ratio with the `or`-defaulted total, otherwise 0. -/
def computeProgress (d : HookData) : Int :=
  match d.percent with
  | some p => pyInt p
  | none =>
    let db := d.downloaded_bytes.getD 0
    let tb := totalBytesVal d
    if tb ≠ 0 then ratioPercent db tb else 0

/-- The progress computation as the SPEC sentence orders it (byte ratio first
when the total size is known, then the provider percentage, else 0) — stated
only for comparison against `computeProgress`, which embeds the code. -/
def computeProgressSpec (d : HookData) : Int :=
  match d.total_bytes with
  | some tb => ratioPercent (d.downloaded_bytes.getD 0) tb
  | none =>
    match d.percent with
    | some p => pyInt p
    | none => 0

/-- The callback `progress_hook`: raises `DownloadCancelled` when the cancel event is set;
in the `downloading` branch, the 100ms wall-clock throttle is modelled by the
Boolean `throttled`; the `finished` branch reports 100. -/
def progress_hook (cancelSet throttled : Bool) (d : HookData) : Except String (Option Int) :=
  if cancelSet then Except.error "DownloadCancelled"
  else if d.status = some "downloading" then
    if throttled then Except.ok none
    else Except.ok (some (computeProgress d))
  else if d.status = some "finished" then Except.ok (some 100)
  else Except.ok none

/-! ## The progress-channel protocol

Messages the worker process puts on the multiprocessing queue.  The payloads
of `-PROCESSED-PROGRESS-` and `-DOWNLOADED-PROGRESS-` are the constant `1`
and `-QUEUE-COMPLETE-` carries the job's `playlist_info`; these payloads are
not read by the consumer's counting logic and are omitted. -/
inductive Msg where
  | status (s : String)
  | fileProgress (p : Int)
  | processedProgress
  | downloadedProgress
  | queueComplete
  | threadEnd
  deriving DecidableEq, Repr

@[simp] def isProcessedMsg : Msg → Bool
  | .processedProgress => true
  | _ => false

@[simp] def isDownloadedMsg : Msg → Bool
  | .downloadedProgress => true
  | _ => false

@[simp] def isThreadEndMsg : Msg → Bool
  | .threadEnd => true
  | _ => false

/-- A single-quote character, used inside the status strings. -/
def sq : String := String.singleton (Char.ofNat 39)

def downloadingText (t : String) : String := "Downloading:  " ++ sq ++ t ++ sq

def retryText (t : String) (a : Nat) : String :=
  "Retrying download of " ++ sq ++ t ++ sq ++ " (" ++ toString a ++ "/3)"

def successText (t : String) : String := "Successfully downloaded " ++ sq ++ t ++ sq

/-- Sequential worker's give-up message (main.py line 222). -/
def seqFailText (t : String) : String := "Download failed " ++ sq ++ t ++ sq

/-- Concurrent worker's give-up message (main.py line 336). -/
def concFailText (t : String) : String := "Failed to download " ++ sq ++ t ++ sq

/-- The monotone cancellation flag, abstracted as a budget: `some n` means the
next `n` observed `cancel_event.is_set()` checks read `false` and every later
check reads `true`; `none` means the flag is never set. -/
def cancelCheck : Option Nat → Bool × Option Nat
  | none => (false, none)
  | some 0 => (true, some 0)
  | some (n + 1) => (false, some n)

/-- Result of the per-item retry loop: the messages it put on the queue,
whether some attempt succeeded, the remaining cancellation budget, and the
`str(...)` of a `DownloadCancelled` that escaped (if any). -/
structure AttemptOut where
  events : List Msg
  success : Bool
  cancelState : Option Nat
  exn : Option String
  deriving DecidableEq, Repr

/-- The sequential retry loop (`for attempt in range(1, 4)`, main.py lines
172-225) for one item with title `title`.  `att a` is the environment's
verdict on attempt `a` (`false` covers any exception out of `ydl.download`,
including a `DownloadCancelled` raised inside the progress hook — both land
in the same `except Exception`); `prog a` is the sequence of percentages the
progress hook put on the queue during attempt `a`.  The bare
`raise DownloadCancelled()` at the top of an attempt has `str(e) = ""`. -/
def runAttempts (title : String) (att : Nat → Bool) (prog : Nat → List Int) :
    Nat → Nat → Option Nat → AttemptOut
  | 0, _, c => { events := [], success := false, cancelState := c, exn := none }
  | fuel + 1, a, c =>
    let chk := cancelCheck c
    if chk.1 then { events := [], success := false, cancelState := chk.2, exn := some "" }
    else
      let pre := if a > 1 then [Msg.status (retryText title a)] else []
      let dl := (prog a).map Msg.fileProgress
      if att a then
        let post :=
          if a > 1 then [Msg.status (successText title), Msg.status "Processing downloads"]
          else []
        { events := pre ++ dl ++ post, success := true, cancelState := chk.2, exn := none }
      else
        let post :=
          if a = 3 then [Msg.status (seqFailText title), Msg.status "Processing downloads"]
          else []
        let rest := runAttempts title att prog fuel (a + 1) chk.2
        { events := pre ++ dl ++ post ++ rest.events
          success := rest.success
          cancelState := rest.cancelState
          exn := rest.exn }

/-- One iteration of the sequential item loop (main.py lines 145-233):
cancellation check (`raise DownloadCancelled("Download cancelled")`), the
`Downloading:  '...'` status, then the retry loop. -/
def processItem (v : Video) (att : Nat → Bool) (prog : Nat → List Int)
    (c : Option Nat) : AttemptOut :=
  let chk := cancelCheck c
  if chk.1 then
    { events := [], success := false, cancelState := chk.2, exn := some "Download cancelled" }
  else
    let r := runAttempts (videoTitleSeq v) att prog 3 1 chk.2
    { r with events := Msg.status (downloadingText (videoTitleSeq v)) :: r.events }

/-- Result of the sequential item loop: events, the two local counters
(`processed_count`, `downloaded_count`), cancellation budget, escaped
exception. -/
structure SeqOut where
  events : List Msg
  processed_count : Nat
  downloaded_count : Nat
  cancelState : Option Nat
  exn : Option String
  deriving DecidableEq, Repr

/-- The `for video in entries` loop of `download_process` (main.py lines
145-233).  `att i a` / `prog i a` are the oracles for item `i`. -/
def itemsLoop (att : Nat → Nat → Bool) (prog : Nat → Nat → List Int) :
    List Video → Nat → Option Nat → SeqOut
  | [], _, c =>
    { events := [], processed_count := 0, downloaded_count := 0, cancelState := c, exn := none }
  | v :: vs, i, c =>
    let r := processItem v (att i) (prog i) c
    match r.exn with
    | some e =>
      { events := r.events, processed_count := 0, downloaded_count := 0
        cancelState := r.cancelState, exn := some e }
    | none =>
      let mine := Msg.processedProgress ::
        (if r.success then [Msg.downloadedProgress] else [])
      let rest := itemsLoop att prog vs (i + 1) r.cancelState
      { events := r.events ++ mine ++ rest.events
        processed_count := rest.processed_count + 1
        downloaded_count := rest.downloaded_count + (if r.success then 1 else 0)
        cancelState := rest.cancelState
        exn := rest.exn }

/-- The sequential worker `download_process` (main.py lines 114-240) as the
list of messages it puts on the queue.  `setupErr` models an exception from
the directory-creation / option-setup phase (e.g. `os.makedirs` or a missing
ffmpeg), caught by the job-boundary `except`; the `finally` block always
appends `-THREAD-END-`.  The unique-folder computation itself is
`findFreeFolder` (verified separately); it does not influence the message
stream. -/
def download_process (info : PlaylistInfo) (format_choice : String)
    (att : Nat → Nat → Bool) (prog : Nat → Nat → List Int)
    (cancelBudget : Option Nat) (setupErr : Option String) : List Msg :=
  let start := [Msg.status "Starting downloads"]
  let body : List Msg × Option String :=
    if info.entries.length = 0 then (start ++ [Msg.status "Empty content"], none)
    else
      match setupErr with
      | some e => (start, some e)
      | none =>
        let r := itemsLoop att prog info.entries 0 cancelBudget
        match r.exn with
        | some e => (start ++ r.events, some e)
        | none => (start ++ r.events ++ [Msg.status "Completed!", Msg.queueComplete], none)
  let errTail := match body.2 with
    | none => []
    | some e => [Msg.status ("Error: " ++ e)]
  body.1 ++ errTail ++ [Msg.threadEnd]

/-- The events one item contributes in the sequential loop when cancellation
never fires (used to attribute per-item emissions). -/
def seqItemEvents (v : Video) (att : Nat → Bool) (prog : Nat → List Int) : List Msg :=
  (processItem v att prog none).events ++
    Msg.processedProgress ::
      (if (processItem v att prog none).success then [Msg.downloadedProgress] else [])

/-- Concatenation of the per-item event blocks from index `i` on. -/
def seqJoin (att : Nat → Nat → Bool) (prog : Nat → Nat → List Int) :
    List Video → Nat → List Msg
  | [], _ => []
  | v :: vs, i => seqItemEvents v (att i) (prog i) ++ seqJoin att prog vs (i + 1)

/-! ## The concurrent worker (main.py lines 242-362) -/

/-- The retry loop of the thread worker `download_video` (main.py lines
294-339).  Unlike the sequential loop there is no explicit cancellation
check: a cancel observed inside the progress hook surfaces as a failed
attempt; the `except` branch posts the retry status after every failure. -/
def dvAttempts (title : String) (att : Nat → Bool) (prog : Nat → List Int) :
    Nat → Nat → List Msg × Bool
  | 0, _ => ([], false)
  | fuel + 1, a =>
    let dl := (prog a).map Msg.fileProgress
    if att a then
      let post :=
        if a > 1 then [Msg.status (successText title), Msg.status "Processing downloads"]
        else []
      (dl ++ post, true)
    else
      let post := Msg.status (retryText title a) ::
        (if a = 3 then [Msg.status (concFailText title), Msg.status "Processing downloads"]
         else [])
      let rest := dvAttempts title att prog fuel (a + 1)
      (dl ++ post ++ rest.1, rest.2)

/-- The thread worker `download_video` (main.py lines 286-349): retry loop,
then — under the lock — exactly one `-PROCESSED-PROGRESS-` and, on success,
one `-DOWNLOADED-PROGRESS-`. -/
def download_video (title : String) (att : Nat → Bool) (prog : Nat → List Int) : List Msg :=
  let r := dvAttempts title att prog 3 1
  r.1 ++ Msg.processedProgress :: (if r.2 then [Msg.downloadedProgress] else [])

/-- The per-item message streams submitted to the pool, in submission order. -/
def concStreams (entries : List Video) (att : Nat → Nat → Bool)
    (prog : Nat → Nat → List Int) : List (List Msg) :=
  entries.enum.map (fun p => download_video (videoTitleConc p.2) (att p.1) (prog p.1))

/-- An interleaving of the streams driven by a scheduler: at each step the
scheduler names the stream whose next message is delivered; the merge is
defined only when the schedule consumes every stream completely. -/
def mergeSched : List Nat → List (List Msg) → Option (List Msg)
  | [], ls => if ls.all List.isEmpty then some [] else none
  | i :: s, ls =>
    match ls.get? i with
    | some (m :: tl) => (mergeSched s (ls.set i tl)).map (fun out => m :: out)
    | _ => none

/-- The possible message streams of `download_process_concurrent` (main.py
lines 242-362).  The four cases: empty job; setup failure before the pool;
`ThreadPoolExecutor(max_workers=0)` raising `ValueError`; and a normal run,
whose middle section is some bounded-pool interleaving of the per-item
streams (the bound `N` restricts which interleavings the pool can realize,
every one of which is a `mergeSched` merge).  In every case the `finally`
block puts `-THREAD-END-` last. -/
def ConcRun (info : PlaylistInfo) (att : Nat → Nat → Bool)
    (prog : Nat → Nat → List Int) (setupErr : Option String) (N : Nat)
    (ev : List Msg) : Prop :=
  (info.entries = [] ∧
    ev = [Msg.status "Starting downloads", Msg.status "Empty content", Msg.threadEnd])
  ∨ (info.entries ≠ [] ∧ ∃ e, setupErr = some e ∧
      ev = [Msg.status "Starting downloads", Msg.status ("Error: " ++ e), Msg.threadEnd])
  ∨ (info.entries ≠ [] ∧ setupErr = none ∧ N = 0 ∧
      ev = [Msg.status "Starting downloads",
        Msg.status ("Error: " ++ "max_workers must be greater than 0"), Msg.threadEnd])
  ∨ (info.entries ≠ [] ∧ setupErr = none ∧ 1 ≤ N ∧
      ∃ sched mid, mergeSched sched (concStreams info.entries att prog) = some mid ∧
        ev = Msg.status "Starting downloads" ::
          (mid ++ [Msg.status "Complete!", Msg.queueComplete, Msg.threadEnd]))

/-! ### Lemmas about the string primitives -/

theorem mem_pyRStrip {p : Char → Bool} {c : Char} :
    ∀ {l : List Char}, c ∈ pyRStrip p l → c ∈ l := by
  intro l
  induction l with
  | nil => intro h; simp [pyRStrip] at h
  | cons a l ih =>
    intro h
    rw [pyRStrip] at h
    split at h
    · simp at h
    · rcases List.mem_cons.mp h with h | h
      · exact h ▸ List.mem_cons_self a l
      · exact List.mem_cons_of_mem a (ih h)

theorem getLast?_pyRStrip {p : Char → Bool} {c : Char} :
    ∀ {l : List Char}, (pyRStrip p l).getLast? = some c → p c = false := by
  intro l
  induction l with
  | nil => intro h; simp [pyRStrip] at h
  | cons a l ih =>
    intro h
    rw [pyRStrip] at h
    split at h
    · simp at h
    · rename_i hk
      rw [Bool.and_eq_true, not_and] at hk
      cases hr : pyRStrip p l with
      | nil =>
        rw [hr] at h
        have ha : c = a := by simpa using h.symm
        have hpa : ¬ p a = true := hk (by rw [hr]; rfl)
        rw [ha]
        simpa using hpa
      | cons b m =>
        rw [hr, List.getLast?_cons_cons] at h
        exact ih (hr ▸ h)

theorem head?_pyRStrip {p : Char → Bool} {c : Char} :
    ∀ {l : List Char}, (pyRStrip p l).head? = some c → l.head? = some c := by
  intro l
  induction l with
  | nil => intro h; simp [pyRStrip] at h
  | cons a l _ =>
    intro h
    rw [pyRStrip] at h
    split at h
    · simp at h
    · simp only [List.head?_cons, Option.some.injEq] at h
      simpa [List.head?_cons] using h

theorem head?_dropWhile {p : Char → Bool} {c : Char} :
    ∀ {l : List Char}, (l.dropWhile p).head? = some c → p c = false := by
  intro l
  induction l with
  | nil => intro h; simp at h
  | cons a l ih =>
    intro h
    by_cases ha : p a
    · rw [List.dropWhile_cons_of_pos ha] at h; exact ih h
    · rw [List.dropWhile_cons_of_neg ha] at h
      simp only [List.head?_cons, Option.some.injEq] at h
      subst h
      simpa using ha

theorem mem_dropWhileChar {p : Char → Bool} {c : Char} {l : List Char}
    (h : c ∈ l.dropWhile p) : c ∈ l :=
  (List.dropWhile_sublist p (l := l)).mem h

theorem mem_sanitize {s : String} {c : Char} (h : c ∈ (sanitize_filename s).data) :
    c ∈ replaceInvalid s.data := by
  simp only [sanitize_filename] at h
  exact mem_dropWhileChar (mem_pyRStrip (mem_pyRStrip h))

/-! ## C9: properties of `sanitize_filename` -/

/-- C9 counterexample.  The claim states the sanitized title has no trailing
whitespace, but `sanitize_filename` runs `strip()` before `rstrip('.')`
(main.py line 82), so stripping a trailing dot can expose a trailing space:
on input `"a ."` the code returns `"a "`, whose last character is a space. -/
theorem sanitize_trailing_space_cex :
    sanitize_filename "a ." = "a " ∧
      (sanitize_filename "a .").data.getLast? = some ' ' ∧ pyIsSpace ' ' = true := by
  refine ⟨by decide, by decide, by decide⟩

/-- C9 (amended): for every input string, the sanitized title contains none of
the reserved characters `< > : " / \ | ? *`, has no trailing dot, and has no
leading whitespace.  (Trailing whitespace can remain, because the code strips
whitespace before it strips trailing dots; see the counterexample.) -/
theorem sanitize_filename_safe (s : String) :
    (∀ c ∈ (sanitize_filename s).data, ¬ invalid_chars.contains c) ∧
      (∀ c, (sanitize_filename s).data.getLast? = some c → c ≠ '.') ∧
      (∀ c, (sanitize_filename s).data.head? = some c → pyIsSpace c = false) := by
  refine ⟨?_, ?_, ?_⟩
  · intro c hc
    have hmem : c ∈ replaceInvalid s.data := mem_sanitize hc
    simp only [replaceInvalid, List.mem_map] at hmem
    obtain ⟨d, _, hd⟩ := hmem
    by_cases hdi : invalid_chars.contains d
    · rw [if_pos hdi] at hd
      rw [← hd]
      decide
    · rw [if_neg hdi] at hd
      rw [← hd]
      exact hdi
  · intro c hc
    have := getLast?_pyRStrip (p := fun c => c == '.') (l := pyStripBoth pyIsSpace (replaceInvalid s.data)) hc
    simpa using this
  · intro c hc
    have h1 : (pyStripBoth pyIsSpace (replaceInvalid s.data)).head? = some c :=
      head?_pyRStrip hc
    simp only [pyStripBoth] at h1
    have h2 : ((pyLStrip pyIsSpace (replaceInvalid s.data))).head? = some c :=
      head?_pyRStrip h1
    exact head?_dropWhile h2

/-- C9 witness: the amended theorem evaluated on the concrete input
`" ab<c>?. "`, which sanitizes to `"ab_c__"`. -/
theorem sanitize_filename_safe_witness :
    sanitize_filename " ab<c>?. " = "ab_c__" ∧
      (¬ invalid_chars.contains '_') ∧ ('_' ≠ '.') ∧ pyIsSpace 'a' = false :=
  ⟨by decide,
   (sanitize_filename_safe " ab<c>?. ").1 '_' (by decide),
   (sanitize_filename_safe " ab<c>?. ").2.1 '_' (by decide),
   (sanitize_filename_safe " ab<c>?. ").2.2 'a' (by decide)⟩

/-! ## C3: the queue is a LIFO stack -/

/-- C3: `download_queue.append` enqueues at the right end; immediately after
an enqueue the queue view lists the new entry's (truncated) title first; the
view presents all entries in reverse-insertion order; `removeLast`
(`download_queue.pop()`) and the next-job selection (`download_queue[-1]`)
both operate on that same right end. -/
theorem queue_lifo_view (q : List PlaylistInfo) (e : PlaylistInfo) :
    update_queue_display_titles (enqueue q e) =
        displayTitle e.title :: update_queue_display_titles q ∧
      update_queue_display_titles q = (q.map (fun x => displayTitle x.title)).reverse ∧
      removeLast (enqueue q e) = q ∧
      nextJob (enqueue q e) = some e := by
  refine ⟨?_, ?_, ?_, ?_⟩
  · simp [update_queue_display_titles, enqueue]
  · simp [update_queue_display_titles, List.map_reverse]
  · simp [removeLast, enqueue]
  · simp [nextJob, enqueue]

/-! ## C10: rejection of non-http(s) URLs -/

/-- C10: for every URL that starts with neither `http://` nor `https://`,
`add_to_queue` leaves the queue (and every other state field) unchanged,
launches no metadata resolution, and only sets the status text to
`Invalid URL`. -/
theorem invalid_url_no_enqueue (st : UIState) (url : String)
    (h : (pyStartsWith url "http://" || pyStartsWith url "https://") = false) :
    (add_to_queue st url).1 = { st with status_text := "Invalid URL" } ∧
      (add_to_queue st url).2 = false := by
  simp [add_to_queue, h]

def c10State : UIState :=
  { download_queue := [], initial_total := 0, downloaded_files := 0, processed_files := 0
    session_active := false, current_download := none, concurrent_mode := false
    current_total := 0, processed_current := 0, status_text := "Waiting for start" }

/-- C10 witness: the scheme check fails on `"www.youtube.com/watch?v=abc"`
and the entry is rejected. -/
theorem invalid_url_no_enqueue_witness :
    (add_to_queue c10State "www.youtube.com/watch?v=abc").1 =
        { c10State with status_text := "Invalid URL" } ∧
      (add_to_queue c10State "www.youtube.com/watch?v=abc").2 = false :=
  ⟨(invalid_url_no_enqueue c10State "www.youtube.com/watch?v=abc" (by decide)).1,
   (invalid_url_no_enqueue c10State "www.youtube.com/watch?v=abc" (by decide)).2⟩

/-! ## C4: which operations reset the aggregate counters -/

theorem update_counters_processed (st : UIState) :
    (update_counters st).processed_files = st.processed_files := by
  unfold update_counters; split <;> rfl

theorem update_counters_downloaded (st : UIState) :
    (update_counters st).downloaded_files = st.downloaded_files := by
  unfold update_counters; split <;> rfl

def c4State : UIState :=
  { download_queue := [], initial_total := 0, downloaded_files := 2, processed_files := 3
    session_active := false, current_download := none, concurrent_mode := false
    current_total := 0, processed_current := 0, status_text := "Waiting for start" }

/-- C4 counterexample.  The claim says only queue-clear and cancellation
reset the aggregate counters and that enqueue in particular does not; but the
`-ADD-QUEUE-` handler (main.py lines 535-536) zeroes `downloaded_files` and
`processed_files` on every nonempty URL submission. -/
theorem enqueue_resets_counters_cex :
    c4State.processed_files = 3 ∧ c4State.downloaded_files = 2 ∧
      (ui_step c4State (UIEvent.addQueue "https://a")).processed_files = 0 ∧
      (ui_step c4State (UIEvent.addQueue "https://a")).downloaded_files = 0 := by
  exact ⟨rfl, rfl, by decide, by decide⟩

/-- C4 (amended): the aggregate counters are reset to 0 by an explicit
queue-clear, by cancellation, and also by every add-to-queue submission of a
nonempty URL; every other event of the main loop leaves them unchanged or
increments them (it never resets them). -/
theorem counters_reset_rule (st : UIState) (ev : UIEvent) :
    (resetsCounters ev →
        (ui_step st ev).processed_files = 0 ∧ (ui_step st ev).downloaded_files = 0) ∧
      (¬ resetsCounters ev →
        st.processed_files ≤ (ui_step st ev).processed_files ∧
          st.downloaded_files ≤ (ui_step st ev).downloaded_files) := by
  constructor
  · rintro (rfl | rfl | ⟨raw, rfl, hraw⟩)
    · constructor <;>
        simp [ui_step, update_counters_processed, update_counters_downloaded]
    · constructor <;>
        simp [ui_step, update_counters_processed, update_counters_downloaded]
    · constructor <;> simp [ui_step, hraw]
  · intro hn
    cases ev with
    | addQueue raw =>
      by_cases hr : pyStripStr raw = ""
      · simp [ui_step, hr]
      · exact absurd (Or.inr (Or.inr ⟨raw, rfl, hr⟩)) hn
    | clearQueue => exact absurd (Or.inl rfl) hn
    | cancelClick => exact absurd (Or.inr (Or.inl rfl)) hn
    | removeLastClick =>
      constructor <;>
        simp [ui_step, update_counters_processed, update_counters_downloaded]
    | viewQueueDelete sel =>
      constructor <;> simp only [ui_step] <;> split <;>
        simp [update_counters_processed, update_counters_downloaded]
    | startDownload =>
      constructor <;> simp only [ui_step] <;> split <;>
        first
        | rfl
        | (rename_i hgl; cases hlast : st.download_queue.getLast? <;> simp)
    | statusMsg s => constructor <;> simp [ui_step]
    | msgFileProgress p => constructor <;> simp [ui_step]
    | msgDownloaded =>
      constructor <;>
        simp [ui_step, update_counters_processed, update_counters_downloaded]
    | msgProcessed =>
      constructor <;>
        simp [ui_step, update_counters_processed, update_counters_downloaded]
    | queueCompleteMsg =>
      constructor <;> simp only [ui_step] <;> split <;> simp
    | threadEndMsg => constructor <;> simp [ui_step]
    | resolutionDone idx info =>
      constructor <;> simp only [ui_step] <;>
        cases st.download_queue.get? idx <;> simp <;> split <;>
          simp [update_counters_processed, update_counters_downloaded]

/-- C4 witness: reset applied for a clear-queue event on a state with nonzero
counters, and preservation applied for a remove-last event. -/
theorem counters_reset_rule_witness :
    ((ui_step c4State UIEvent.clearQueue).processed_files = 0 ∧
        (ui_step c4State UIEvent.clearQueue).downloaded_files = 0) ∧
      (c4State.processed_files ≤ (ui_step c4State UIEvent.removeLastClick).processed_files ∧
        c4State.downloaded_files ≤ (ui_step c4State UIEvent.removeLastClick).downloaded_files) :=
  ⟨(counters_reset_rule c4State UIEvent.clearQueue).1 (Or.inl rfl),
   (counters_reset_rule c4State UIEvent.removeLastClick).2
     (by rintro (h | h | ⟨raw, h, hraw⟩) <;> simp at h)⟩

/-! ## C5: priority order of the progress computation -/

def c5Data : HookData :=
  { status := some "downloading", percent := some 50, downloaded_bytes := some 10
    total_bytes := some 100, total_bytes_estimate := none }

/-- C5 counterexample.  The claim gives the byte ratio priority over the
provider-supplied `percent` field, but the code checks `d.get('percent')`
first (main.py lines 197-199): with `percent = 50`, `downloaded_bytes = 10`
and `total_bytes = 100` the code reports 50 while the claimed rule yields
10. -/
theorem progress_priority_cex :
    computeProgress c5Data = 50 ∧ computeProgressSpec c5Data = 10 ∧
      progress_hook false false c5Data = Except.ok (some 50) ∧ (50 : Int) ≠ 10 := by
  refine ⟨by decide, by decide, rfl, by decide⟩

/-- C5 (amended): in every progress callback for an in-flight transfer the
reported percentage is the provider-supplied `percent` field when present;
otherwise the truncated byte ratio `downloaded_bytes / total`, where the
total falls back from `total_bytes` to `total_bytes_estimate` to a default
of 1; if that effective total is zero the reported progress is 0. -/
theorem progress_priority_source (d : HookData) :
    (d.status = some "downloading" →
        progress_hook false false d = Except.ok (some (computeProgress d))) ∧
      (∀ p, d.percent = some p → computeProgress d = pyInt p) ∧
      (d.percent = none → totalBytesVal d ≠ 0 →
        computeProgress d = ratioPercent (d.downloaded_bytes.getD 0) (totalBytesVal d)) ∧
      (d.percent = none → totalBytesVal d = 0 → computeProgress d = 0) := by
  refine ⟨?_, ?_, ?_, ?_⟩
  · intro h; simp [progress_hook, h]
  · intro p hp; simp [computeProgress, hp]
  · intro hp ht; simp [computeProgress, hp, ht]
  · intro hp ht; simp [computeProgress, hp, ht]

def c5w1 : HookData :=
  { status := some "downloading", percent := some 50, downloaded_bytes := none
    total_bytes := none, total_bytes_estimate := none }

def c5w2 : HookData :=
  { status := some "downloading", percent := none, downloaded_bytes := some 50
    total_bytes := some 200, total_bytes_estimate := none }

def c5w3 : HookData :=
  { status := some "downloading", percent := none, downloaded_bytes := some 5
    total_bytes := some 0, total_bytes_estimate := some 0 }

/-- C5 witness: each branch of the amended rule evaluated at a concrete
progress dict. -/
theorem progress_priority_source_witness :
    progress_hook false false c5w1 = Except.ok (some (computeProgress c5w1)) ∧
      computeProgress c5w1 = pyInt 50 ∧
      computeProgress c5w2 =
        ratioPercent (c5w2.downloaded_bytes.getD 0) (totalBytesVal c5w2) ∧
      computeProgress c5w3 = 0 :=
  ⟨(progress_priority_source c5w1).1 rfl,
   (progress_priority_source c5w1).2.1 50 rfl,
   (progress_priority_source c5w2).2.2.1 rfl (by decide),
   (progress_priority_source c5w3).2.2.2 rfl (by decide)⟩

/-! ## C6: unique destination directory -/

/-- C6: the collision loop never returns an existing directory name, and on
collision it tries `X_1`, then `X_2`, with incrementing suffixes, taking the
first free name. -/
theorem unique_folder (ex : String → Bool) (orig : String) :
    (∀ fuel k s, findFreeFolder ex orig fuel k = some s → ex s = false) ∧
      (ex orig = true → ex (folderCandidate orig 1) = false →
        ∀ fuel, 2 ≤ fuel →
          findFreeFolder ex orig fuel 0 = some (folderCandidate orig 1)) ∧
      (ex orig = true → ex (folderCandidate orig 1) = true →
        ex (folderCandidate orig 2) = false →
        ∀ fuel, 3 ≤ fuel →
          findFreeFolder ex orig fuel 0 = some (folderCandidate orig 2)) := by
  have step : ∀ f k, findFreeFolder ex orig (f + 1) k =
      if ex (folderCandidate orig k) then findFreeFolder ex orig f (k + 1)
      else some (folderCandidate orig k) := fun f k => rfl
  refine ⟨?_, ?_, ?_⟩
  · intro fuel
    induction fuel with
    | zero => intro k s h; simp [findFreeFolder] at h
    | succ n ih =>
      intro k s h
      rw [step] at h
      by_cases hx : ex (folderCandidate orig k)
      · rw [if_pos hx] at h
        exact ih (k + 1) s h
      · rw [if_neg hx] at h
        obtain rfl : folderCandidate orig k = s := by injection h
        simpa using hx
  · intro h0 h1 fuel hf
    obtain ⟨f, rfl⟩ : ∃ f, fuel = f + 2 := ⟨fuel - 2, by omega⟩
    rw [step (f + 1) 0, if_pos (show ex (folderCandidate orig 0) = true from h0),
      step f 1, if_neg (show ¬ ex (folderCandidate orig 1) = true from by simp [h1])]
  · intro h0 h1 h2 fuel hf
    obtain ⟨f, rfl⟩ : ∃ f, fuel = f + 3 := ⟨fuel - 3, by omega⟩
    rw [step (f + 2) 0, if_pos (show ex (folderCandidate orig 0) = true from h0),
      step (f + 1) 1, if_pos (show ex (folderCandidate orig 1) = true from h1),
      step f 2, if_neg (show ¬ ex (folderCandidate orig 2) = true from by simp [h2])]

/-- A filesystem in which `X` and `X_1` already exist. -/
def c6ex : String → Bool := fun s => s == "X" || s == "X_1"

/-- C6 witness: with `X` and `X_1` taken, the loop creates `X_2`, which did
not exist. -/
theorem unique_folder_witness :
    findFreeFolder c6ex "X" 3 0 = some (folderCandidate "X" 2) ∧
      folderCandidate "X" 2 = "X_2" ∧
      c6ex (folderCandidate "X" 2) = false := by
  have h := (unique_folder c6ex "X").2.2 (by decide) (by decide) (by decide) 3 (by decide)
  exact ⟨h, by decide, (unique_folder c6ex "X").1 3 0 _ h⟩

/-! ## C8: totality of `get_playlist_info` -/

theorem gpi_go_sleep_le (url : String) :
    ∀ l : List (Option RawInfo), (gpi_go url l).2 ≤ l.length := by
  intro l
  induction l with
  | nil => simp [gpi_go]
  | cons a rest ih =>
    cases a with
    | none => simpa [gpi_go] using ih
    | some info => simp [gpi_go]

theorem gpi_go_allnone (url : String) :
    ∀ l : List (Option RawInfo), (∀ a ∈ l, a = none) →
      (gpi_go url l).1 =
        { title := sanitize_filename url, url := url, total := 0, entries := [] } := by
  intro l
  induction l with
  | nil => intro _; rfl
  | cons a rest ih =>
    intro h
    have ha : a = none := h a (List.mem_cons_self a rest)
    subst ha
    exact ih (fun x hx => h x (List.mem_cons_of_mem _ hx))

theorem gpi_go_some (url : String) :
    ∀ l : List (Option RawInfo), (∃ a ∈ l, a ≠ none) →
      1 ≤ (gpi_go url l).1.total := by
  intro l
  induction l with
  | nil => rintro ⟨a, ha, _⟩; simp at ha
  | cons a rest ih =>
    rintro ⟨x, hx, hxn⟩
    cases a with
    | some info =>
      show 1 ≤ (if info.entries.length = 0 then 1 else info.entries.length)
      split
      · exact le_refl 1
      · omega
    | none =>
      rcases List.mem_cons.mp hx with rfl | hx'
      · exact absurd rfl hxn
      · exact ih ⟨x, hx', hxn⟩

/-- C8: metadata resolution is total: it inspects at most the first 3
attempt results, sleeps at most 3 back-off seconds, fails closed with
`total = 0` and no entries when all attempts fail, and returns an item count
of at least 1 whenever any attempt succeeds. -/
theorem resolver_total (url : String) (attempts : List (Option RawInfo)) :
    get_playlist_info url attempts = get_playlist_info url (attempts.take 3) ∧
      gpi_sleep_seconds url attempts ≤ 3 ∧
      ((∀ a ∈ attempts.take 3, a = none) →
        (get_playlist_info url attempts).total = 0 ∧
          (get_playlist_info url attempts).entries = []) ∧
      ((∃ a ∈ attempts.take 3, a ≠ none) →
        1 ≤ (get_playlist_info url attempts).total) := by
  refine ⟨?_, ?_, ?_, ?_⟩
  · simp [get_playlist_info, List.take_take]
  · have h1 := gpi_go_sleep_le url (attempts.take 3)
    have h2 : (attempts.take 3).length ≤ 3 := by
      rw [List.length_take]; exact min_le_left _ _
    exact le_trans h1 h2
  · intro h
    rw [get_playlist_info, gpi_go_allnone url _ h]
    exact ⟨rfl, rfl⟩
  · intro h
    exact gpi_go_some url _ h

def c8raw : RawInfo :=
  { asVideo := { id? := none, url? := none, title? := some "T" }, entries := [] }

/-- C8 witness: three failed attempts fail closed; a successful attempt (here
a single video, empty `entries`) yields item count 1. -/
theorem resolver_total_witness :
    (get_playlist_info "u" [none, none, none, some c8raw]).total = 0 ∧
      (get_playlist_info "u" [none, none, none, some c8raw]).entries = [] ∧
      1 ≤ (get_playlist_info "u" [some c8raw]).total :=
  ⟨((resolver_total "u" [none, none, none, some c8raw]).2.2.1 (by decide)).1,
   ((resolver_total "u" [none, none, none, some c8raw]).2.2.1 (by decide)).2,
   (resolver_total "u" [some c8raw]).2.2.2 ⟨some c8raw, by decide, by decide⟩⟩

/-! ## Counting lemmas for the worker embeddings -/

theorem countP_fileProgress_map (p : Msg → Bool)
    (hfp : ∀ q, p (Msg.fileProgress q) = false) (l : List Int) :
    (l.map Msg.fileProgress).countP p = 0 := by
  rw [List.countP_map]
  exact List.countP_eq_zero.mpr (fun a _ => by simp [Function.comp, hfp])

theorem runAttempts_countP (t : String) (att : Nat → Bool) (prog : Nat → List Int)
    (p : Msg → Bool) (hst : ∀ s, p (Msg.status s) = false)
    (hfp : ∀ q, p (Msg.fileProgress q) = false) :
    ∀ fuel a c, ((runAttempts t att prog fuel a c).events).countP p = 0 := by
  intro fuel
  induction fuel with
  | zero => intro a c; simp [runAttempts]
  | succ n ih =>
    intro a c
    simp only [runAttempts]
    split
    · simp
    · split <;>
        by_cases ha : a > 1 <;> by_cases h3 : a = 3 <;>
          simp [ha, h3, List.countP_cons, hst,
            countP_fileProgress_map p hfp, ih]

theorem processItem_countP (v : Video) (att : Nat → Bool) (prog : Nat → List Int)
    (c : Option Nat) (p : Msg → Bool) (hst : ∀ s, p (Msg.status s) = false)
    (hfp : ∀ q, p (Msg.fileProgress q) = false) :
    ((processItem v att prog c).events).countP p = 0 := by
  simp only [processItem]
  split
  · simp
  · simp [List.countP_cons, hst,
      runAttempts_countP (videoTitleSeq v) att prog p hst hfp]

theorem itemsLoop_spec (att : Nat → Nat → Bool) (prog : Nat → Nat → List Int) :
    ∀ (vs : List Video) (i : Nat) (c : Option Nat),
      ((itemsLoop att prog vs i c).events).countP isProcessedMsg =
          (itemsLoop att prog vs i c).processed_count ∧
        ((itemsLoop att prog vs i c).events).countP isDownloadedMsg =
          (itemsLoop att prog vs i c).downloaded_count ∧
        ((itemsLoop att prog vs i c).events).countP isThreadEndMsg = 0 ∧
        ((itemsLoop att prog vs i c).exn = none →
          (itemsLoop att prog vs i c).processed_count = vs.length) := by
  intro vs
  induction vs with
  | nil => intro i c; simp [itemsLoop]
  | cons v vs ih =>
    intro i c
    simp only [itemsLoop]
    split
    · rename_i e heq
      refine ⟨?_, ?_, ?_, ?_⟩
      · simp [processItem_countP v (att i) (prog i) c isProcessedMsg
          (fun s => rfl) (fun q => rfl)]
      · simp [processItem_countP v (att i) (prog i) c isDownloadedMsg
          (fun s => rfl) (fun q => rfl)]
      · simp [processItem_countP v (att i) (prog i) c isThreadEndMsg
          (fun s => rfl) (fun q => rfl)]
      · intro h; simp at h
    · rename_i heq
      obtain ⟨ih1, ih2, ih3, ih4⟩ :=
        ih (i + 1) (processItem v (att i) (prog i) c).cancelState
      refine ⟨?_, ?_, ?_, ?_⟩
      · cases hs : (processItem v (att i) (prog i) c).success <;>
          simp [hs, List.countP_append, List.countP_cons, ih1,
            processItem_countP v (att i) (prog i) c isProcessedMsg
              (fun s => rfl) (fun q => rfl)]
      · cases hs : (processItem v (att i) (prog i) c).success <;>
          simp [hs, List.countP_append, List.countP_cons, ih2,
            processItem_countP v (att i) (prog i) c isDownloadedMsg
              (fun s => rfl) (fun q => rfl)]
      · cases hs : (processItem v (att i) (prog i) c).success <;>
          simp [hs, List.countP_append, List.countP_cons, ih3,
            processItem_countP v (att i) (prog i) c isThreadEndMsg
              (fun s => rfl) (fun q => rfl)]
      · intro h
        simp [ih4 h]

theorem runAttempts_none_state (t : String) (att : Nat → Bool) (prog : Nat → List Int) :
    ∀ fuel a, (runAttempts t att prog fuel a none).cancelState = none ∧
      (runAttempts t att prog fuel a none).exn = none := by
  intro fuel
  induction fuel with
  | zero => intro a; simp [runAttempts]
  | succ n ih =>
    intro a
    simp only [runAttempts, cancelCheck]
    split
    · simp_all
    · split <;> simp [ih]

theorem processItem_none_state (v : Video) (att : Nat → Bool) (prog : Nat → List Int) :
    (processItem v att prog none).cancelState = none ∧
      (processItem v att prog none).exn = none := by
  simp [processItem, cancelCheck, runAttempts_none_state]

theorem itemsLoop_none_events (att : Nat → Nat → Bool) (prog : Nat → Nat → List Int) :
    ∀ (vs : List Video) (i : Nat),
      (itemsLoop att prog vs i none).events = seqJoin att prog vs i ∧
        (itemsLoop att prog vs i none).exn = none := by
  intro vs
  induction vs with
  | nil => intro i; simp [itemsLoop, seqJoin]
  | cons v vs ih =>
    intro i
    have hpi := processItem_none_state v (att i) (prog i)
    simp only [itemsLoop, hpi.1, hpi.2]
    obtain ⟨ih1, ih2⟩ := ih (i + 1)
    simp [seqJoin, seqItemEvents, ih1, ih2, List.append_assoc]

theorem download_process_clean (info : PlaylistInfo) (fmt : String)
    (att : Nat → Nat → Bool) (prog : Nat → Nat → List Int)
    (hne : info.entries ≠ []) :
    download_process info fmt att prog none none =
      Msg.status "Starting downloads" ::
        (seqJoin att prog info.entries 0 ++
          [Msg.status "Completed!", Msg.queueComplete, Msg.threadEnd]) := by
  have hlen : ¬ info.entries.length = 0 := by
    simp [List.length_eq_zero, hne]
  obtain ⟨h1, h2⟩ := itemsLoop_none_events att prog info.entries 0
  simp only [download_process, if_neg hlen, h1, h2]
  simp

theorem seqJoin_split (att : Nat → Nat → Bool) (prog : Nat → Nat → List Int) :
    ∀ (vs : List Video) (i j : Nat) (h : j < vs.length),
      ∃ pre post, seqJoin att prog vs i =
        pre ++ seqItemEvents (vs.get ⟨j, h⟩) (att (i + j)) (prog (i + j)) ++ post := by
  intro vs
  induction vs with
  | nil => intro i j h; simp at h
  | cons v vs ih =>
    intro i j h
    cases j with
    | zero =>
      exact ⟨[], seqJoin att prog vs (i + 1), by simp [seqJoin]⟩
    | succ j' =>
      obtain ⟨pre, post, hp⟩ := ih (i + 1) j' (Nat.lt_of_succ_lt_succ h)
      refine ⟨seqItemEvents v (att i) (prog i) ++ pre, post, ?_⟩
      have hidx : i + 1 + j' = i + (j' + 1) := by omega
      simp only [seqJoin, List.get_cons_succ]
      rw [hp, hidx]
      simp [List.append_assoc]

theorem seqItemEvents_countP (v : Video) (att : Nat → Bool) (prog : Nat → List Int) :
    (seqItemEvents v att prog).countP isProcessedMsg = 1 ∧
      (seqItemEvents v att prog).countP isDownloadedMsg =
        (if (processItem v att prog none).success then 1 else 0) := by
  constructor <;>
    cases hs : (processItem v att prog none).success <;>
      simp [seqItemEvents, hs, List.countP_append, List.countP_cons,
        processItem_countP v att prog none isProcessedMsg (fun s => rfl) (fun q => rfl),
        processItem_countP v att prog none isDownloadedMsg (fun s => rfl) (fun q => rfl)]

theorem seqJoin_countP_processed (att : Nat → Nat → Bool) (prog : Nat → Nat → List Int) :
    ∀ (vs : List Video) (i : Nat),
      (seqJoin att prog vs i).countP isProcessedMsg = vs.length := by
  intro vs
  induction vs with
  | nil => intro i; simp [seqJoin]
  | cons v vs ih =>
    intro i
    simp [seqJoin, List.countP_append, (seqItemEvents_countP v (att i) (prog i)).1, ih]
    omega

/-- Structure of every sequential run: some prefix without `-THREAD-END-`,
then the single final `-THREAD-END-`. -/
theorem download_process_te (info : PlaylistInfo) (fmt : String)
    (att : Nat → Nat → Bool) (prog : Nat → Nat → List Int)
    (cb : Option Nat) (se : Option String) :
    ∃ pre, download_process info fmt att prog cb se = pre ++ [Msg.threadEnd] ∧
      pre.countP isThreadEndMsg = 0 := by
  simp only [download_process]
  split
  · exact ⟨[Msg.status "Starting downloads", Msg.status "Empty content"],
      by simp, by simp⟩
  · cases se with
    | some e =>
      exact ⟨[Msg.status "Starting downloads", Msg.status ("Error: " ++ e)],
        by simp, by simp⟩
    | none =>
      have h3 := (itemsLoop_spec att prog info.entries 0 cb).2.2.1
      cases hexn : (itemsLoop att prog info.entries 0 cb).exn with
      | some e =>
        refine ⟨Msg.status "Starting downloads" ::
          ((itemsLoop att prog info.entries 0 cb).events ++
            [Msg.status ("Error: " ++ e)]), ?_, ?_⟩
        · simp [hexn]
        · simp [List.countP_cons, List.countP_append, h3]
      | none =>
        refine ⟨Msg.status "Starting downloads" ::
          ((itemsLoop att prog info.entries 0 cb).events ++
            [Msg.status "Completed!", Msg.queueComplete]), ?_, ?_⟩
        · simp [hexn]
        · simp [List.countP_cons, List.countP_append, h3]

/-! ### Lemmas for the concurrent worker -/

theorem dvAttempts_countP (t : String) (att : Nat → Bool) (prog : Nat → List Int)
    (p : Msg → Bool) (hst : ∀ s, p (Msg.status s) = false)
    (hfp : ∀ q, p (Msg.fileProgress q) = false) :
    ∀ fuel a, ((dvAttempts t att prog fuel a).1).countP p = 0 := by
  intro fuel
  induction fuel with
  | zero => intro a; simp [dvAttempts]
  | succ n ih =>
    intro a
    simp only [dvAttempts]
    split <;>
      by_cases ha : a > 1 <;> by_cases h3 : a = 3 <;>
        simp [ha, h3, List.countP_cons, hst,
          countP_fileProgress_map p hfp, ih]

theorem download_video_countP_processed (t : String) (att : Nat → Bool)
    (prog : Nat → List Int) :
    (download_video t att prog).countP isProcessedMsg = 1 := by
  cases hs : (dvAttempts t att prog 3 1).2 <;>
    simp [download_video, hs, List.countP_append, List.countP_cons,
      dvAttempts_countP t att prog isProcessedMsg (fun s => rfl) (fun q => rfl)]

theorem download_video_countP_te (t : String) (att : Nat → Bool)
    (prog : Nat → List Int) :
    (download_video t att prog).countP isThreadEndMsg = 0 := by
  cases hs : (dvAttempts t att prog 3 1).2 <;>
    simp [download_video, hs, List.countP_append, List.countP_cons,
      dvAttempts_countP t att prog isThreadEndMsg (fun s => rfl) (fun q => rfl)]

theorem sumMap_set (f : List Msg → Nat) :
    ∀ (ls : List (List Msg)) (i : Nat) (x y : List Msg),
      ls.get? i = some y →
        ((ls.set i x).map f).sum + f y = (ls.map f).sum + f x := by
  intro ls
  induction ls with
  | nil => intro i x y h; simp at h
  | cons a ls ih =>
    intro i x y h
    cases i with
    | zero =>
      simp only [List.get?] at h
      obtain rfl : a = y := by injection h
      simp [List.set]
      omega
    | succ n =>
      simp only [List.get?] at h
      have hrec := ih n x y h
      simp only [List.set_cons_succ, List.map_cons, List.sum_cons]
      omega

theorem sumMap_countP_all_empty (p : Msg → Bool) :
    ∀ ls : List (List Msg), ls.all List.isEmpty = true →
      (ls.map (List.countP p)).sum = 0 := by
  intro ls
  induction ls with
  | nil => intro _; simp
  | cons a ls ih =>
    intro h
    simp only [List.all_cons, Bool.and_eq_true] at h
    obtain ⟨ha, hl⟩ := h
    rw [List.isEmpty_iff] at ha
    subst ha
    simp [ih hl]

theorem mergeSched_countP (p : Msg → Bool) :
    ∀ (sched : List Nat) (ls : List (List Msg)) (out : List Msg),
      mergeSched sched ls = some out →
        out.countP p = (ls.map (List.countP p)).sum := by
  intro sched
  induction sched with
  | nil =>
    intro ls out h
    simp only [mergeSched] at h
    split at h
    · rename_i hall
      obtain rfl : ([] : List Msg) = out := by injection h
      simp [sumMap_countP_all_empty p ls hall]
    · exact absurd h (by simp)
  | cons i s ih =>
    intro ls out h
    simp only [mergeSched] at h
    split at h
    · rename_i m tl hg
      rcases ho : mergeSched s (ls.set i tl) with _ | out'
      · rw [ho] at h; simp at h
      · rw [ho] at h
        simp only [Option.map_some'] at h
        obtain rfl : m :: out' = out := by injection h
        have hIH := ih (ls.set i tl) out' ho
        have hset := sumMap_set (List.countP p) ls i tl (m :: tl) hg
        rw [List.countP_cons] at hset
        rw [List.countP_cons]
        omega
    · simp at h

theorem sum_map_ones : ∀ l : List (List Msg), (l.map (fun _ => (1 : Nat))).sum = l.length := by
  intro l
  induction l with
  | nil => simp
  | cons a l ih => simp [ih]; omega

theorem concStreams_countP_processed (entries : List Video)
    (att : Nat → Nat → Bool) (prog : Nat → Nat → List Int) :
    ((concStreams entries att prog).map (List.countP isProcessedMsg)).sum =
      entries.length := by
  have h : (concStreams entries att prog).map (List.countP isProcessedMsg) =
      (concStreams entries att prog).map (fun _ => 1) := by
    apply List.map_congr_left
    intro x hx
    simp only [concStreams, List.mem_map] at hx
    obtain ⟨pr, _, rfl⟩ := hx
    exact download_video_countP_processed _ _ _
  rw [h, sum_map_ones]
  simp [concStreams]

theorem concStreams_countP_te (entries : List Video)
    (att : Nat → Nat → Bool) (prog : Nat → Nat → List Int) :
    ((concStreams entries att prog).map (List.countP isThreadEndMsg)).sum = 0 := by
  apply List.sum_eq_zero
  intro x hx
  simp only [List.mem_map] at hx
  obtain ⟨l, hl, rfl⟩ := hx
  simp only [concStreams, List.mem_map] at hl
  obtain ⟨pr, _, rfl⟩ := hl
  exact download_video_countP_te _ _ _

/-! ## C1: exactly one `WorkerEnded`, and it is last -/

/-- C1: in every execution of the worker — successful completion, empty job,
internal error, or cooperative cancellation, under either strategy — exactly
one `-THREAD-END-` message is emitted and it is the last message of the run.
(The hard `terminate()` of the `-CANCEL-` handler kills the worker process
from outside and is beyond the worker's own semantics.) -/
theorem worker_ended_once_last (info : PlaylistInfo) (fmt : String)
    (att : Nat → Nat → Bool) (prog : Nat → Nat → List Int)
    (cancelBudget : Option Nat) (setupErr : Option String) :
    ((download_process info fmt att prog cancelBudget setupErr).countP isThreadEndMsg = 1 ∧
      (download_process info fmt att prog cancelBudget setupErr).getLast? =
        some Msg.threadEnd) ∧
      (∀ N ev, ConcRun info att prog setupErr N ev →
        ev.countP isThreadEndMsg = 1 ∧ ev.getLast? = some Msg.threadEnd) := by
  constructor
  · obtain ⟨pre, heq, hcnt⟩ := download_process_te info fmt att prog cancelBudget setupErr
    rw [heq]
    constructor
    · simp [List.countP_append, hcnt]
    · exact List.getLast?_concat pre
  · intro N ev h
    rcases h with ⟨_, rfl⟩ | ⟨_, e, _, rfl⟩ | ⟨_, _, _, rfl⟩ |
      ⟨hne, hse, hN, sched, mid, hm, rfl⟩
    · exact ⟨by simp, by simp⟩
    · exact ⟨by simp, by simp⟩
    · exact ⟨by simp, by simp⟩
    · have hmid : mid.countP isThreadEndMsg = 0 := by
        rw [mergeSched_countP isThreadEndMsg sched _ mid hm]
        exact concStreams_countP_te _ _ _
      constructor
      · simp [List.countP_cons, List.countP_append, hmid]
      · have hshape : Msg.status "Starting downloads" ::
            (mid ++ [Msg.status "Complete!", Msg.queueComplete, Msg.threadEnd]) =
            (Msg.status "Starting downloads" ::
              (mid ++ [Msg.status "Complete!", Msg.queueComplete])) ++ [Msg.threadEnd] := by
          simp
        rw [hshape]
        exact List.getLast?_concat _

def pInfoEmpty : PlaylistInfo := { title := "t", url := "u", total := 0, entries := [] }

def attF : Nat → Nat → Bool := fun _ _ => false

def progN : Nat → Nat → List Int := fun _ _ => []

/-- C1 witness: concrete empty job under both strategies. -/
theorem worker_ended_once_last_witness :
    (download_process pInfoEmpty "mp4" attF progN none none).countP isThreadEndMsg = 1 ∧
      ([Msg.status "Starting downloads", Msg.status "Empty content",
          Msg.threadEnd].countP isThreadEndMsg = 1) :=
  ⟨(worker_ended_once_last pInfoEmpty "mp4" attF progN none none).1.1,
   ((worker_ended_once_last pInfoEmpty "mp4" attF progN none none).2 1
      [Msg.status "Starting downloads", Msg.status "Empty content", Msg.threadEnd]
      (Or.inl ⟨rfl, rfl⟩)).1⟩

/-! ## C2: exactly one `ItemProcessed` per item -/

/-- C2: a job with `n` items that runs to the end without cancellation emits
exactly `n` `-PROCESSED-PROGRESS-` messages — one per item, no double
counting, no omission — under the sequential strategy and under the
bounded-concurrent strategy for every worker limit `N ≥ 1` and every
interleaving the pool can produce. -/
theorem processed_exactly_once_per_item (info : PlaylistInfo) (fmt : String)
    (att : Nat → Nat → Bool) (prog : Nat → Nat → List Int) (N : Nat) (hN : 1 ≤ N) :
    (download_process info fmt att prog none none).countP isProcessedMsg =
        info.entries.length ∧
      ∀ ev, ConcRun info att prog none N ev →
        ev.countP isProcessedMsg = info.entries.length := by
  constructor
  · by_cases hE : info.entries = []
    · simp [download_process, hE]
    · rw [download_process_clean info fmt att prog hE]
      simp [List.countP_cons, List.countP_append, seqJoin_countP_processed]
  · intro ev h
    rcases h with ⟨hE, rfl⟩ | ⟨_, e, hse, _⟩ | ⟨_, _, hN0, _⟩ |
      ⟨hne, hse, _, sched, mid, hm, rfl⟩
    · simp [hE]
    · exact absurd hse (by simp)
    · omega
    · have hmid : mid.countP isProcessedMsg = info.entries.length := by
        rw [mergeSched_countP isProcessedMsg sched _ mid hm]
        exact concStreams_countP_processed _ _ _
      simp [List.countP_cons, List.countP_append, hmid]

def v0 : Video := { id? := none, url? := none, title? := none }

def pInfo1 : PlaylistInfo := { title := "t", url := "u", total := 1, entries := [v0] }

def attT : Nat → Nat → Bool := fun _ _ => true

def cEv2 : List Msg :=
  Msg.status "Starting downloads" ::
    ([Msg.processedProgress, Msg.downloadedProgress] ++
      [Msg.status "Complete!", Msg.queueComplete, Msg.threadEnd])

/-- C2 witness: one-item job; sequential run and a concrete concurrent
interleaving both emit exactly one `-PROCESSED-PROGRESS-`. -/
theorem processed_exactly_once_per_item_witness :
    (download_process pInfo1 "mp4" attT progN none none).countP isProcessedMsg = 1 ∧
      cEv2.countP isProcessedMsg = 1 :=
  have h := processed_exactly_once_per_item pInfo1 "mp4" attT progN 1 (le_refl 1)
  ⟨h.1,
   h.2 cEv2 (Or.inr (Or.inr (Or.inr ⟨by decide, rfl, le_refl 1, [0, 0],
     [Msg.processedProgress, Msg.downloadedProgress], by decide, rfl⟩)))⟩

/-! ## C7: an item failing all 3 attempts -/

theorem runAttempts_all_fail (t : String) (att : Nat → Bool) (prog : Nat → List Int)
    (h1 : att 1 = false) (h2 : att 2 = false) (h3 : att 3 = false) :
    (runAttempts t att prog 3 1 none).success = false := by
  simp [runAttempts, cancelCheck, h1, h2, h3]

/-- C7: in a job run to the end without cancellation, an item whose three
attempts all fail contributes exactly one `-PROCESSED-PROGRESS-` and no
`-DOWNLOADED-PROGRESS-`; the loop continues past it, and the job still ends
in the `Completed!` terminal (status, `-QUEUE-COMPLETE-`, `-THREAD-END-`),
not in the error terminal. -/
theorem failed_item_still_counted (info : PlaylistInfo) (fmt : String)
    (att : Nat → Nat → Bool) (prog : Nat → Nat → List Int) (j : Nat)
    (hj : j < info.entries.length)
    (h1 : att j 1 = false) (h2 : att j 2 = false) (h3 : att j 3 = false) :
    (∃ pre post, download_process info fmt att prog none none =
        pre ++ seqItemEvents (info.entries.get ⟨j, hj⟩) (att j) (prog j) ++ post) ∧
      (seqItemEvents (info.entries.get ⟨j, hj⟩) (att j) (prog j)).countP
          isProcessedMsg = 1 ∧
      (seqItemEvents (info.entries.get ⟨j, hj⟩) (att j) (prog j)).countP
          isDownloadedMsg = 0 ∧
      ∃ mid, download_process info fmt att prog none none =
        Msg.status "Starting downloads" ::
          (mid ++ [Msg.status "Completed!", Msg.queueComplete, Msg.threadEnd]) := by
  have hne : info.entries ≠ [] := by
    intro h
    rw [h] at hj
    simp at hj
  have hclean := download_process_clean info fmt att prog hne
  have hsucc : (processItem (info.entries.get ⟨j, hj⟩) (att j) (prog j) none).success
      = false := by
    simp only [processItem, cancelCheck]
    simpa using runAttempts_all_fail _ (att j) (prog j) h1 h2 h3
  refine ⟨?_, (seqItemEvents_countP _ _ _).1, ?_, ?_⟩
  · obtain ⟨pre, post, hp⟩ := seqJoin_split att prog info.entries 0 j hj
    rw [Nat.zero_add] at hp
    refine ⟨Msg.status "Starting downloads" :: pre,
      post ++ [Msg.status "Completed!", Msg.queueComplete, Msg.threadEnd], ?_⟩
    rw [hclean, hp]
    simp [List.append_assoc]
  · rw [(seqItemEvents_countP _ _ _).2, hsucc]
    simp
  · exact ⟨seqJoin att prog info.entries 0, hclean⟩

/-- C7 witness: a one-item job whose item fails all three attempts. -/
theorem failed_item_still_counted_witness :
    (seqItemEvents v0 (attF 0) (progN 0)).countP isProcessedMsg = 1 ∧
      (seqItemEvents v0 (attF 0) (progN 0)).countP isDownloadedMsg = 0 ∧
      ∃ mid, download_process pInfo1 "mp4" attF progN none none =
        Msg.status "Starting downloads" ::
          (mid ++ [Msg.status "Completed!", Msg.queueComplete, Msg.threadEnd]) :=
  have h := failed_item_still_counted pInfo1 "mp4" attF progN 0 (by decide) rfl rfl rfl
  ⟨h.2.1, h.2.2.1, h.2.2.2⟩

end Petice
